import Mathlib

/-!
Shallow embedding of the Dreams Bar backend (three server variants: a
MariaDB/mysql2 variant in `server.js`, a PostgreSQL variant and an
in-memory variant in the unnamed source file).  JavaScript record values
are modelled by `JVal` (numbers as rationals, with a separate `nan`
constructor so that strict equality on `NaN` can be modelled), JSON
objects by association lists of key/value pairs.
-/

namespace DreamsBar

/-- A JavaScript value as it appears in the request/response records of
this backend: a (finite, non-NaN) number, `NaN`, a string, a boolean,
`null`, or `undefined`. -/
inductive JVal where
  | num (q : ℚ)
  | nan
  | str (s : String)
  | bool (b : Bool)
  | null
  | undef
deriving DecidableEq, Repr

/-- A JavaScript object (a JSON record): an association list of field
names to values, in property order. -/
abbrev JObj := List (String × JVal)

/-- Property read `o[k]`: the value at the first occurrence of key `k`,
`undefined` when the key is absent. -/
def jget : JObj → String → JVal
  | [], _ => .undef
  | p :: rest, k => if p.1 = k then p.2 else jget rest k

/-- Property write `o[k] = v`: replaces the value at the first occurrence
of `k` in place, or appends the new property (JavaScript keeps insertion
order for string keys). -/
def jset : JObj → String → JVal → JObj
  | [], k, v => [(k, v)]
  | p :: rest, k, v => if p.1 = k then (k, v) :: rest else p :: jset rest k v

/-- Object spread `{ ...a, ...b }`: the properties of `b` assigned over a
copy of `a`, left to right. -/
def jmerge (a b : JObj) : JObj :=
  b.foldl (fun acc p => jset acc p.1 p.2) a

/-- Whether the object has a property named `k`. -/
def hasKey (o : JObj) (k : String) : Bool :=
  o.any (fun p => p.1 = k)

/-- Whether a value is string-typed (`typeof v === 'string'`). -/
def isStrB : JVal → Bool
  | .str _ => true
  | _ => false

/-- JavaScript truthiness test, negated forms of which guard the
`if (!name || ...)` validations in `server.js`. -/
def jsFalsy : JVal → Bool
  | .num q => q = 0
  | .nan => true
  | .str s => s = ""
  | .bool b => !b
  | .null => true
  | .undef => true

/-- JavaScript strict equality `===` restricted to the values of this
model: structural equality, except that `NaN` is equal to nothing
(including itself). -/
def jsEq : JVal → JVal → Bool
  | .nan, _ => false
  | _, .nan => false
  | a, b => a = b

/-- SQL `=` on column values as used in the `WHERE`/`JOIN` conditions:
structural equality, except that `NULL` compares false with everything
(three-valued logic collapsed to the filter outcome). -/
def sqlEqB : JVal → JVal → Bool
  | .null, _ => false
  | _, .null => false
  | a, b => a = b

/-- Numeral value of a list of decimal digit characters. -/
def digitsToNat (ds : List Char) : Nat :=
  ds.foldl (fun a c => a * 10 + (c.toNat - 48)) 0

/-- `parseFloat` as used by `parseNumericFields` in `server.js`: strips
whitespace, reads an optional sign, then the longest prefix of the form
`digits[.digits]`; `NaN` when no digit is found.  (The exponent form,
never produced by a SQL `DECIMAL` column, is not modelled.)  The value
`±ip.fp` is assembled as one exact quotient `±(ip·10^|fp| + fp) / 10^|fp|`. -/
def parseFloatJS (s : String) : JVal :=
  let cs := s.toList.dropWhile Char.isWhitespace
  let signed := match cs with
    | '-' :: t => (true, t)
    | '+' :: t => (false, t)
    | _ => (false, cs)
  let ip := signed.2.takeWhile Char.isDigit
  let rest := signed.2.dropWhile Char.isDigit
  let fp := match rest with
    | '.' :: t => t.takeWhile Char.isDigit
    | _ => []
  if ip.isEmpty && fp.isEmpty then .nan
  else
    let m : Int := (digitsToNat ip : Int) * (10 : Int) ^ fp.length + (digitsToNat fp : Int)
    .num (Rat.divInt (if signed.1 then -m else m) ((10 : Int) ^ fp.length))

/-- `parseInt` applied to a request path parameter (a string): strips
whitespace, reads an optional sign and the longest decimal digit prefix;
`NaN` when no digit is found. -/
def parseIntStr (s : String) : JVal :=
  let cs := s.toList.dropWhile Char.isWhitespace
  let signed := match cs with
    | '-' :: t => (true, t)
    | '+' :: t => (false, t)
    | _ => (false, cs)
  let ds := signed.2.takeWhile Char.isDigit
  if ds.isEmpty then .nan
  else
    let n : ℚ := (digitsToNat ds : ℚ)
    .num (if signed.1 then -n else n)

/-- Truncation toward zero, the effect of `parseInt` on an integral or
fractional number rendered back to decimal notation (`num/den` in
truncating integer division is exactly that truncation). -/
def jsTrunc (q : ℚ) : Int :=
  Int.tdiv q.num q.den

/-- `parseInt(v)` for a general value, as called by `getById` on a
booking's `room_id`/`client_id` field: numbers are truncated toward
zero, strings are parsed, everything else is `NaN`. -/
def parseIntV : JVal → JVal
  | .num q => .num (jsTrunc q : ℚ)
  | .str s => parseIntStr s
  | _ => .nan

/-- One conditional coercion step of `parseNumericFields`: if the field
is string-typed, replace it by `parseFloat` of the string, otherwise
leave the object untouched. -/
def coerceField (o : JObj) (k : String) : JObj :=
  match jget o k with
  | .str s => jset o k (parseFloatJS s)
  | _ => o

/-- `parseNumericFields` from `server.js` (the MariaDB variant): coerces
each of the six numeric display fields from the driver's string
representation back to a number, field by field, in source order.  (The
leading `if (!item) return item;` null guard is outside this object-level
function; every call site passes an existing row.) -/
def parseNumericFields (o : JObj) : JObj :=
  coerceField (coerceField (coerceField (coerceField (coerceField
    (coerceField o "quantity") "cost_price") "selling_price")
    "reorder_level") "price_per_night") "total_price"

/-- The six field names coerced by `parseNumericFields`. -/
def numericFieldNames : List String :=
  ["quantity", "cost_price", "selling_price", "reorder_level",
   "price_per_night", "total_price"]

/-!
## HTTP response model

Every handler produces a status code together with a JSON body: an array
of rows (`res.json(rows)`), a single object (`res.json(obj)` /
`res.status(c).json(obj)`), or the empty body of `res.status(204).send()`.
-/

/-- A JSON response body. -/
inductive RBody where
  | rows (l : List JObj)
  | obj (o : JObj)
  | empty
deriving DecidableEq, Repr

/-- An HTTP response: status code plus body. -/
structure Resp where
  status : Nat
  body : RBody
deriving DecidableEq, Repr

/-- The `{message: ...}` error/success object used by the handlers. -/
def msgObj (s : String) : JObj := [("message", .str s)]

/-!
## SQL model (MariaDB variant in `server.js`, PostgreSQL variant)

A table is the list of its rows (each a `JObj`) in the store's internal
row order; `SELECT *` without an `ORDER BY` returns that order, and
`ORDER BY id ASC` sorts it by the `id` column.  Query parameters bound
to the `id` column are modelled as rationals (the store casts the path
string to the column type).
-/

/-- Sort key of a row for `ORDER BY id ASC` (ids are numeric in the
store; a non-numeric id, impossible for a stored row, defaults to 0). -/
def keyQ (o : JObj) : ℚ :=
  match jget o "id" with
  | .num q => q
  | _ => 0

/-- Row comparison used by `ORDER BY id ASC`. -/
def rowLe (a b : JObj) : Prop := keyQ a ≤ keyQ b

instance : DecidableRel rowLe := fun a b => inferInstanceAs (Decidable (keyQ a ≤ keyQ b))

instance : IsTotal JObj rowLe := ⟨fun a b => le_total (keyQ a) (keyQ b)⟩

instance : IsTrans JObj rowLe := ⟨fun _ _ _ => le_trans⟩

/-- `ORDER BY id ASC` over a table: the rows sorted by the `id` column. -/
def orderByIdAsc (tbl : List JObj) : List JObj :=
  tbl.insertionSort rowLe

/-- Rows of `tbl` whose `id` column equals the bound parameter `pid`. -/
def rowsWithId (tbl : List JObj) (pid : ℚ) : List JObj :=
  tbl.filter (fun r => sqlEqB (jget r "id") (.num pid))

/-- `DELETE FROM t WHERE id = ?`: the remaining rows and `affectedRows`
(the number of rows removed). -/
def sqlDeleteWhereId (tbl : List JObj) (pid : ℚ) : List JObj × Nat :=
  (tbl.filter (fun r => !(sqlEqB (jget r "id") (.num pid))),
   tbl.countP (fun r => sqlEqB (jget r "id") (.num pid)))

/-- Overwrite the listed columns of a row with the corresponding values
from the request body (the `SET c1 = ?, c2 = ?, ...` column list). -/
def setCols (cols : List String) (body : JObj) (r : JObj) : JObj :=
  cols.foldl (fun acc k => jset acc k (jget body k)) r

/-- `UPDATE t SET cols WHERE id = ?`: the new table and `affectedRows`
(for an UPDATE the mysql2/pg drivers report the number of matched
rows). -/
def sqlUpdateWhereId (cols : List String) (tbl : List JObj) (pid : ℚ)
    (body : JObj) : List JObj × Nat :=
  (tbl.map (fun r =>
      if sqlEqB (jget r "id") (.num pid) then setCols cols body r else r),
   tbl.countP (fun r => sqlEqB (jget r "id") (.num pid)))

/-- The mutable columns of the `inventory` table, in the order of the
`INSERT`/`UPDATE` column lists of both relational variants. -/
def invColNames : List String :=
  ["name", "category_id", "quantity", "unit", "cost_price",
   "selling_price", "reorder_level"]

/-- The mutable columns of the `rooms` table. -/
def roomColNames : List String :=
  ["room_number", "type", "price_per_night", "status"]

/-- The mutable columns of the bookings table. -/
def bookingColNames : List String :=
  ["room_id", "client_id", "check_in_date", "check_out_date",
   "total_price", "status"]

/-- The row inserted by `INSERT INTO t (cols) VALUES (...)` once the
store has assigned the auto-increment id `newId`. -/
def insertedRow (cols : List String) (newId : ℚ) (body : JObj) : JObj :=
  ("id", .num newId) :: cols.map (fun k => (k, jget body k))

/-!
### Booking join view, relational variants

Both relational variants read the detailed bookings with an inner join
`bookings ⋈ rooms ON room_id = rooms.id ⋈ clients ON client_id =
clients.id`.  `sqlJoinOne` is the contribution of one booking row: the
nested-loop expansion of the two joins.
-/

/-- PostgreSQL variant (`SELECT b.*, r.room_number, r.type AS room_type,
c.name AS client_name, c.contact_info AS client_contact_info`): the
joined rows contributed by one booking row `b`. -/
def sqlJoinOne (rs cs : List JObj) (b : JObj) : List JObj :=
  (rs.filter (fun r => sqlEqB (jget b "room_id") (jget r "id"))).flatMap
    (fun r =>
      (cs.filter (fun c => sqlEqB (jget b "client_id") (jget c "id"))).map
        (fun c =>
          jset (jset (jset (jset b
            "room_number" (jget r "room_number"))
            "room_type" (jget r "type"))
            "client_name" (jget c "name"))
            "client_contact_info" (jget c "contact_info")))

/-- MariaDB variant: same inner join, but with an explicit projection of
the selected columns instead of `b.*`. -/
def mysqlJoinOne (rs cs : List JObj) (b : JObj) : List JObj :=
  (rs.filter (fun r => sqlEqB (jget b "room_id") (jget r "id"))).flatMap
    (fun r =>
      (cs.filter (fun c => sqlEqB (jget b "client_id") (jget c "id"))).map
        (fun c =>
          [("id", jget b "id"),
           ("check_in_date", jget b "check_in_date"),
           ("check_out_date", jget b "check_out_date"),
           ("total_price", jget b "total_price"),
           ("status", jget b "status"),
           ("room_number", jget r "room_number"),
           ("room_type", jget r "type"),
           ("client_name", jget c "name"),
           ("client_contact_info", jget c "contact_info")]))

/-- `GET /api/bookings/rooms`, PostgreSQL variant: inner join ordered by
booking id ascending, rows returned as the driver produced them. -/
def pgListDetailedBookings (bs rs cs : List JObj) : List JObj :=
  orderByIdAsc (bs.flatMap (sqlJoinOne rs cs))

/-- `GET /api/bookings/rooms`, MariaDB variant: inner join without an
`ORDER BY`, each row passed through `parseNumericFields`. -/
def mysqlListDetailedBookings (bs rs cs : List JObj) : List JObj :=
  (bs.flatMap (mysqlJoinOne rs cs)).map parseNumericFields

/-- `GET /api/inventory`, MariaDB variant: `SELECT * FROM inventory`
(no `ORDER BY`), rows mapped through `parseNumericFields`. -/
def mysqlListInventory (tbl : List JObj) : List JObj :=
  tbl.map parseNumericFields

/-- `GET /api/rooms`, MariaDB variant. -/
def mysqlListRooms (tbl : List JObj) : List JObj :=
  tbl.map parseNumericFields

/-- `GET /api/inventory` (and the other collection reads), PostgreSQL
variant: `SELECT * FROM t ORDER BY id ASC`, rows returned unmodified. -/
def pgListInventory (tbl : List JObj) : List JObj :=
  orderByIdAsc tbl

/-- Presence validation of the MariaDB inventory POST/PUT handlers:
`!name || !category_id || quantity === undefined || !unit ||
cost_price === undefined || selling_price === undefined ||
reorder_level === undefined` fails the request; this is the negation. -/
def invFieldsValid (body : JObj) : Bool :=
  !(jsFalsy (jget body "name")) && !(jsFalsy (jget body "category_id")) &&
  !(jget body "quantity" == JVal.undef) && !(jsFalsy (jget body "unit")) &&
  !(jget body "cost_price" == JVal.undef) &&
  !(jget body "selling_price" == JVal.undef) &&
  !(jget body "reorder_level" == JVal.undef)

/-- `PUT /api/inventory/:id`, MariaDB variant: presence validation
(400), then `UPDATE ... WHERE id = ?`; zero affected rows is 404, and
success answers 200 with a message object (not the updated entity). -/
def mysqlUpdateInventoryH (tbl : List JObj) (pid : ℚ) (body : JObj) :
    List JObj × Resp :=
  if invFieldsValid body then
    let r := sqlUpdateWhereId invColNames tbl pid body
    if r.2 = 0 then
      (r.1, ⟨404, .obj (msgObj "Inventory item not found.")⟩)
    else
      (r.1, ⟨200, .obj (msgObj "Inventory item updated successfully!")⟩)
  else
    (tbl, ⟨400, .obj (msgObj "All fields are required for update.")⟩)

/-- `DELETE /api/inventory/:id`, MariaDB variant: zero affected rows is
404; success answers `res.json({message})`, i.e. 200 with a message
body. -/
def mysqlDeleteInventoryH (tbl : List JObj) (pid : ℚ) : List JObj × Resp :=
  let r := sqlDeleteWhereId tbl pid
  if r.2 = 0 then
    (r.1, ⟨404, .obj (msgObj "Inventory item not found.")⟩)
  else
    (r.1, ⟨200, .obj (msgObj "Inventory item deleted successfully!")⟩)

/-- `POST /api/inventory`, MariaDB variant: presence validation (400),
then `INSERT`; success answers 201 with a message object carrying
`result.insertId`. -/
def mysqlCreateInventoryH (tbl : List JObj) (newId : ℚ) (body : JObj) :
    List JObj × Resp :=
  if invFieldsValid body then
    (tbl ++ [insertedRow invColNames newId body],
     ⟨201, .obj (("message", JVal.str "Inventory item added successfully!") ::
                 [("id", .num newId)])⟩)
  else
    (tbl, ⟨400, .obj (msgObj "All fields are required.")⟩)

/-- `PUT /api/inventory/:id`, PostgreSQL variant: no validation;
`UPDATE ... RETURNING *` — a returned row answers 200 with the updated
entity, an empty result is 404. -/
def pgUpdateInventoryH (tbl : List JObj) (pid : ℚ) (body : JObj) :
    List JObj × Resp :=
  let r := sqlUpdateWhereId invColNames tbl pid body
  match rowsWithId r.1 pid with
  | u :: _ => (r.1, ⟨200, .obj u⟩)
  | [] => (r.1, ⟨404, .obj (msgObj "Item not found")⟩)

/-- `DELETE /api/inventory/:id`, PostgreSQL variant: `DELETE ...
RETURNING id` — a returned row answers `204` with no content, an empty
result is 404. -/
def pgDeleteInventoryH (tbl : List JObj) (pid : ℚ) : List JObj × Resp :=
  let r := sqlDeleteWhereId tbl pid
  if r.2 = 0 then
    (r.1, ⟨404, .obj (msgObj "Item not found")⟩)
  else
    (r.1, ⟨204, .empty⟩)

/-- `POST /api/inventory`, PostgreSQL variant: no validation; `INSERT
... RETURNING *` answers 201 with the created row. -/
def pgCreateInventoryH (tbl : List JObj) (newId : ℚ) (body : JObj) :
    List JObj × Resp :=
  (tbl ++ [insertedRow invColNames newId body],
   ⟨201, .obj (insertedRow invColNames newId body)⟩)

/-!
## In-memory variant

The in-memory server keeps each collection as a plain array of JS
objects plus a numeric id counter.  The three mutating handlers of each
collection share the same shape, factored here into `memPost`, `memPut`
and `memDelete`.
-/

/-- Successor of a rational, written as one exact quotient
`(num + den)/den` so that it evaluates by kernel reduction; `qsucc_eq`
below identifies it with `c + 1`. -/
def qsucc (c : ℚ) : ℚ := Rat.divInt (c.num + c.den) c.den

/-- The item's `id` property. -/
def idv (o : JObj) : JVal := jget o "id"

/-- The predicate of the in-memory `find`/`findIndex`/`filter` calls:
`item.id === parseInt(id)` for a path parameter string `pid`. -/
def matchesId (pid : String) (item : JObj) : Bool :=
  jsEq (jget item "id") (parseIntStr pid)

/-- `Array.prototype.findIndex` (paired with the subsequent indexed
read): the first index whose element satisfies `p`, together with that
element; `none` models the `-1` result. -/
def findIndexJs (p : JObj → Bool) : List JObj → Option (Nat × JObj)
  | [] => none
  | x :: xs =>
    if p x then some (0, x)
    else (findIndexJs p xs).map (fun r => (r.1 + 1, r.2))

/-- `getById` helper of the in-memory server:
`arr.find(item => item.id === parseInt(id))`. -/
def getById (arr : List JObj) (v : JVal) : Option JObj :=
  arr.find? (fun item => jsEq (jget item "id") (parseIntV v))

/-- In-memory create: `const newItem = { id: nextId++, ...req.body }`
pushed onto the array.  Note that the body is spread *after* the `id`
property, so a body containing an `id` field overrides the assigned
identifier.  Returns the new array, the new counter and the created
item. -/
def memPost (arr : List JObj) (c : ℚ) (body : JObj) :
    List JObj × ℚ × JObj :=
  let newItem := jmerge [("id", .num c)] body
  (arr ++ [newItem], (qsucc c, newItem))

/-- The replacement record of an in-memory update:
`{ ...arr[index], ...req.body, id: parseInt(id) }`. -/
def mkUpdated (old : JObj) (pid : String) (body : JObj) : JObj :=
  jset (jmerge old body) "id" (parseIntStr pid)

/-- In-memory update: find the record by id; when found, replace it by
the merged record; `none` models the 404 path. -/
def memPut (arr : List JObj) (pid : String) (body : JObj) :
    Option (List JObj × JObj) :=
  match findIndexJs (matchesId pid) arr with
  | some iu =>
    let u := mkUpdated iu.2 pid body
    some (arr.set iu.1 u, u)
  | none => none

/-- In-memory delete: `arr = arr.filter(item => item.id !== parseInt(id))`
followed by the length comparison; `none` models the 404 path. -/
def memDelete (arr : List JObj) (pid : String) : Option (List JObj) :=
  let filtered := arr.filter (fun item => !(matchesId pid item))
  if filtered.length < arr.length then some filtered else none

/-- The whole mutable state of the in-memory server: the five
collections and the four id counters. -/
structure MemState where
  inventoryItems : List JObj
  rooms : List JObj
  clients : List JObj
  bookings : List JObj
  categories : List JObj
  nextInventoryId : ℚ
  nextRoomId : ℚ
  nextClientId : ℚ
  nextBookingId : ℚ
deriving DecidableEq, Repr

/-- `Math.max(...arr.map(item => item.id)) + 1`, the initial value of
each id counter (the initial arrays are non-empty, so the fold base is
never the result). -/
def nextIdInit (arr : List JObj) : ℚ :=
  qsucc (arr.foldl (fun m o => match idv o with | .num x => max m x | _ => m) 0)

/-- Initial `inventoryItems` array of the in-memory server. -/
def initInventoryItems : List JObj :=
  [[("id", .num 1), ("name", .str "Coca Cola 500ml"), ("category_id", .num 1),
    ("quantity", .num 100), ("unit", .str "bottles"), ("cost_price", .num 1500),
    ("selling_price", .num 2000), ("reorder_level", .num 20)],
   [("id", .num 2), ("name", .str "Nile Special Beer"), ("category_id", .num 1),
    ("quantity", .num 50), ("unit", .str "bottles"), ("cost_price", .num 3000),
    ("selling_price", .num 4000), ("reorder_level", .num 10)],
   [("id", .num 3), ("name", .str "Crisps (Salted)"), ("category_id", .num 2),
    ("quantity", .num 75), ("unit", .str "packs"), ("cost_price", .num 800),
    ("selling_price", .num 1200), ("reorder_level", .num 15)]]

/-- Initial `rooms` array. -/
def initRooms : List JObj :=
  [[("id", .num 1), ("room_number", .str "101"), ("type", .str "Standard"),
    ("price_per_night", .num 50000), ("status", .str "Available")],
   [("id", .num 2), ("room_number", .str "102"), ("type", .str "Deluxe"),
    ("price_per_night", .num 80000), ("status", .str "Occupied")],
   [("id", .num 3), ("room_number", .str "201"), ("type", .str "Suite"),
    ("price_per_night", .num 120000), ("status", .str "Available")]]

/-- Initial `clients` array. -/
def initClients : List JObj :=
  [[("id", .num 1), ("name", .str "John Doe"),
    ("contact_info", .str "john@example.com, 0771234567")],
   [("id", .num 2), ("name", .str "Jane Smith"),
    ("contact_info", .str "jane@example.com, 0772345678")]]

/-- Initial `bookings` array. -/
def initBookings : List JObj :=
  [[("id", .num 1), ("room_id", .num 1), ("client_id", .num 1),
    ("check_in_date", .str "2025-08-01"), ("check_out_date", .str "2025-08-05"),
    ("total_price", .num 200000), ("status", .str "Confirmed")],
   [("id", .num 2), ("room_id", .num 2), ("client_id", .num 2),
    ("check_in_date", .str "2025-07-20"), ("check_out_date", .str "2025-07-22"),
    ("total_price", .num 160000), ("status", .str "Completed")]]

/-- Initial `categories` array. -/
def initCategories : List JObj :=
  [[("id", .num 1), ("name", .str "Beverages")],
   [("id", .num 2), ("name", .str "Snacks")],
   [("id", .num 3), ("name", .str "Food")]]

/-- The in-memory server's state at startup. -/
def memInitial : MemState :=
  { inventoryItems := initInventoryItems
    rooms := initRooms
    clients := initClients
    bookings := initBookings
    categories := initCategories
    nextInventoryId := nextIdInit initInventoryItems
    nextRoomId := nextIdInit initRooms
    nextClientId := nextIdInit initClients
    nextBookingId := nextIdInit initBookings }

/-- `POST /api/inventory`, in-memory variant: 201 with the created
item. -/
def postInventoryH (s : MemState) (body : JObj) : MemState × Resp :=
  let r := memPost s.inventoryItems s.nextInventoryId body
  ({ s with inventoryItems := r.1, nextInventoryId := r.2.1 },
   ⟨201, .obj r.2.2⟩)

/-- `PUT /api/inventory/:id`, in-memory variant: 200 with the merged
item, or 404. -/
def putInventoryH (s : MemState) (pid : String) (body : JObj) :
    MemState × Resp :=
  match memPut s.inventoryItems pid body with
  | some r => ({ s with inventoryItems := r.1 }, ⟨200, .obj r.2⟩)
  | none => (s, ⟨404, .obj (msgObj "Item not found")⟩)

/-- `DELETE /api/inventory/:id`, in-memory variant: 204 with no
content, or 404. -/
def deleteInventoryH (s : MemState) (pid : String) : MemState × Resp :=
  match memDelete s.inventoryItems pid with
  | some arr => ({ s with inventoryItems := arr }, ⟨204, .empty⟩)
  | none => (s, ⟨404, .obj (msgObj "Item not found")⟩)

/-- `POST /api/rooms`, in-memory variant. -/
def postRoomsH (s : MemState) (body : JObj) : MemState × Resp :=
  let r := memPost s.rooms s.nextRoomId body
  ({ s with rooms := r.1, nextRoomId := r.2.1 }, ⟨201, .obj r.2.2⟩)

/-- `PUT /api/rooms/:id`, in-memory variant. -/
def putRoomsH (s : MemState) (pid : String) (body : JObj) :
    MemState × Resp :=
  match memPut s.rooms pid body with
  | some r => ({ s with rooms := r.1 }, ⟨200, .obj r.2⟩)
  | none => (s, ⟨404, .obj (msgObj "Room not found")⟩)

/-- `DELETE /api/rooms/:id`, in-memory variant. -/
def deleteRoomsH (s : MemState) (pid : String) : MemState × Resp :=
  match memDelete s.rooms pid with
  | some arr => ({ s with rooms := arr }, ⟨204, .empty⟩)
  | none => (s, ⟨404, .obj (msgObj "Room not found")⟩)

/-- `POST /api/bookings/rooms`, in-memory variant. -/
def postBookingsH (s : MemState) (body : JObj) : MemState × Resp :=
  let r := memPost s.bookings s.nextBookingId body
  ({ s with bookings := r.1, nextBookingId := r.2.1 }, ⟨201, .obj r.2.2⟩)

/-- `PUT /api/bookings/rooms/:id`, in-memory variant. -/
def putBookingsH (s : MemState) (pid : String) (body : JObj) :
    MemState × Resp :=
  match memPut s.bookings pid body with
  | some r => ({ s with bookings := r.1 }, ⟨200, .obj r.2⟩)
  | none => (s, ⟨404, .obj (msgObj "Booking not found")⟩)

/-- `DELETE /api/bookings/rooms/:id`, in-memory variant. -/
def deleteBookingsH (s : MemState) (pid : String) : MemState × Resp :=
  match memDelete s.bookings pid with
  | some arr => ({ s with bookings := arr }, ⟨204, .empty⟩)
  | none => (s, ⟨404, .obj (msgObj "Booking not found")⟩)

/-- One detailed booking row of the in-memory
`GET /api/bookings/rooms`: the booking spread together with the room and
client display fields, each falling back to the string `'N/A'` when the
referenced entity is not found. -/
def memDetailedRow (rs cs : List JObj) (booking : JObj) : JObj :=
  let room := getById rs (jget booking "room_id")
  let client := getById cs (jget booking "client_id")
  jset (jset (jset (jset booking
    "room_number" (match room with | some r => jget r "room_number" | none => .str "N/A"))
    "room_type" (match room with | some r => jget r "type" | none => .str "N/A"))
    "client_name" (match client with | some c => jget c "name" | none => .str "N/A"))
    "client_contact_info" (match client with | some c => jget c "contact_info" | none => .str "N/A")

/-- `GET /api/bookings/rooms`, in-memory variant: one detailed row per
stored booking, in array order. -/
def memDetailedRows (rs cs bs : List JObj) : List JObj :=
  bs.map (memDetailedRow rs cs)

/-- The in-memory detailed-bookings read over the server state. -/
def listDetailedBookingsH (s : MemState) : Resp :=
  ⟨200, .rows (memDetailedRows s.rooms s.clients s.bookings)⟩

/-- In-memory create sequence: the result of serving a list of POST
bodies against one collection — final array, final counter, and the
created items in order. -/
def postMany (arr : List JObj) (c : ℚ) : List JObj → List JObj × ℚ × List JObj
  | [] => (arr, (c, []))
  | b :: rest =>
    let r := memPost arr c b
    let r2 := postMany r.1 r.2.1 rest
    (r2.1, (r2.2.1, r.2.2 :: r2.2.2))

/-- One observable transition of the in-memory server: a mutating
request served against the state.  Create bodies are restricted to
bodies without an `id` property (a body `id` overrides the assigned
identifier, see the corrected claim about identifier assignment);
update and delete requests are unrestricted. -/
inductive Step : MemState → MemState → Prop where
  | postInv (s : MemState) (body : JObj) (h : hasKey body "id" = false) :
      Step s (postInventoryH s body).1
  | putInv (s : MemState) (pid : String) (body : JObj) :
      Step s (putInventoryH s pid body).1
  | delInv (s : MemState) (pid : String) :
      Step s (deleteInventoryH s pid).1
  | postRoom (s : MemState) (body : JObj) (h : hasKey body "id" = false) :
      Step s (postRoomsH s body).1
  | putRoom (s : MemState) (pid : String) (body : JObj) :
      Step s (putRoomsH s pid body).1
  | delRoom (s : MemState) (pid : String) :
      Step s (deleteRoomsH s pid).1
  | postBooking (s : MemState) (body : JObj) (h : hasKey body "id" = false) :
      Step s (postBookingsH s body).1
  | putBooking (s : MemState) (pid : String) (body : JObj) :
      Step s (putBookingsH s pid body).1
  | delBooking (s : MemState) (pid : String) :
      Step s (deleteBookingsH s pid).1

/-- Strict comparison of two id values: both numbers, first smaller. -/
def vLt (a b : JVal) : Bool :=
  match a, b with
  | .num x, .num y => decide (x < y)
  | _, _ => false

/-- An id value lying strictly below the counter `c`. -/
def vBelow (c : ℚ) (v : JVal) : Bool :=
  match v with
  | .num x => decide (x < c)
  | _ => false

/-- Well-formedness of one collection: the stored ids are numeric and
strictly increasing along the array, and all lie below the collection's
next-id counter. -/
def ArrOk (arr : List JObj) (c : ℚ) : Prop :=
  (arr.map idv).Pairwise (fun a b => vLt a b = true) ∧
  ∀ v ∈ arr.map idv, vBelow c v = true

/-- The in-memory server invariant: every collection is well formed
(categories are never mutated; any bound above their ids works). -/
def Inv (s : MemState) : Prop :=
  ArrOk s.inventoryItems s.nextInventoryId ∧
  ArrOk s.rooms s.nextRoomId ∧
  ArrOk s.clients s.nextClientId ∧
  ArrOk s.bookings s.nextBookingId ∧
  ArrOk s.categories 4

/-- Ids of a collection sorted strictly ascending. -/
def SortedIds (arr : List JObj) : Prop :=
  (arr.map idv).Pairwise (fun a b => vLt a b = true)

instance (arr : List JObj) (c : ℚ) : Decidable (ArrOk arr c) :=
  inferInstanceAs (Decidable (_ ∧ _))

instance (s : MemState) : Decidable (Inv s) :=
  inferInstanceAs (Decidable (_ ∧ _))

instance (arr : List JObj) : Decidable (SortedIds arr) :=
  inferInstanceAs (Decidable (List.Pairwise _ _))

/-!
## Concrete inputs used by witness theorems
-/

/-- A PUT body that tries to smuggle in a different `id`. -/
def c10witBody : JObj := [("id", .num 99)]

/-- The stored room with id 2 (the second initial room). -/
def c10witOld : JObj :=
  [("id", .num 2), ("room_number", .str "102"), ("type", .str "Deluxe"),
   ("price_per_night", .num 80000), ("status", .str "Occupied")]

/-- The record produced by updating room 2 with `c10witBody`. -/
def c10witNew : JObj := mkUpdated c10witOld "2" c10witBody

/-- The rooms array after that update. -/
def c10witArr : List JObj := memInitial.rooms.set 1 c10witNew

/-!
## Lemmas about objects and property access
-/

theorem jget_jset_self (o : JObj) (k : String) (v : JVal) :
    jget (jset o k v) k = v := by
  induction o with
  | nil => simp [jget, jset]
  | cons p rest ih =>
    by_cases h : p.1 = k
    · simp [jget, jset, h]
    · simp [jget, jset, h, ih]

theorem jget_jset_other (o : JObj) (k k' : String) (v : JVal) (h : k' ≠ k) :
    jget (jset o k v) k' = jget o k' := by
  induction o with
  | nil => simp [jget, jset, Ne.symm h]
  | cons p rest ih =>
    by_cases hp : p.1 = k
    · simp [jget, jset, hp, Ne.symm h]
    · by_cases hp' : p.1 = k'
      · simp [jget, jset, hp, hp', h]
      · simp [jget, jset, hp, hp', ih]

theorem jmerge_cons (a : JObj) (p : String × JVal) (b : JObj) :
    jmerge a (p :: b) = jmerge (jset a p.1 p.2) b := by
  simp [jmerge, List.foldl_cons]

theorem jget_jmerge_notKey (a b : JObj) (k : String)
    (h : hasKey b k = false) : jget (jmerge a b) k = jget a k := by
  induction b generalizing a with
  | nil => simp [jmerge]
  | cons p rest ih =>
    have h1 : ¬(p.1 = k) := by
      intro hk
      rw [hasKey] at h
      simp [hk] at h
    have h2 : hasKey rest k = false := by
      rw [hasKey] at h ⊢
      simpa [h1] using h
    rw [jmerge_cons, ih _ h2, jget_jset_other _ _ _ _ (Ne.symm h1)]

theorem jget_jmerge_key (a b : JObj) (k : String)
    (hnd : (b.map Prod.fst).Nodup) (h : hasKey b k = true) :
    jget (jmerge a b) k = jget b k := by
  induction b generalizing a with
  | nil => simp [hasKey] at h
  | cons p rest ih =>
    obtain ⟨k0, v0⟩ := p
    simp only [List.map_cons, List.nodup_cons] at hnd
    by_cases hp : k0 = k
    · subst hp
      have hrest : hasKey rest k0 = false := by
        cases hk : hasKey rest k0
        · rfl
        · exfalso
          rw [hasKey, List.any_eq_true] at hk
          obtain ⟨q, hq, hqk⟩ := hk
          rw [decide_eq_true_eq] at hqk
          exact hnd.1 (hqk ▸ List.mem_map_of_mem Prod.fst hq)
      rw [jmerge_cons, jget_jmerge_notKey _ _ _ hrest]
      simp [jget, jget_jset_self]
    · have h' : hasKey rest k = true := by
        simpa [hasKey, hp] using h
      rw [jmerge_cons, ih _ hnd.2 h']
      simp [jget, hp]

/-!
## Lemmas about `parseNumericFields`
-/

theorem isStrB_parseFloatJS (s : String) : isStrB (parseFloatJS s) = false := by
  rw [parseFloatJS]
  split
  · rfl
  · rfl

theorem coerceField_eq_self (o : JObj) (k : String)
    (h : isStrB (jget o k) = false) : coerceField o k = o := by
  rw [coerceField]
  split
  · rename_i s hs
    rw [hs] at h
    simp [isStrB] at h
  · rfl

theorem jget_coerceField_other (o : JObj) (k k' : String) (h : k' ≠ k) :
    jget (coerceField o k) k' = jget o k' := by
  rw [coerceField]
  split
  · rw [jget_jset_other _ _ _ _ h]
  · rfl

theorem isStrB_jget_coerceField (o : JObj) (k : String) :
    isStrB (jget (coerceField o k) k) = false := by
  rw [coerceField]
  split
  · rw [jget_jset_self]
    exact isStrB_parseFloatJS _
  · rename_i hs
    cases hv : jget o k with
    | str s => exact absurd hv (hs s)
    | _ => simp [hv, isStrB]

theorem jget_coerceField_preserve (o : JObj) (k k' : String)
    (h : isStrB (jget o k) = false) :
    jget (coerceField o k') k = jget o k := by
  by_cases he : k = k'
  · rw [← he, coerceField_eq_self o k h]
  · exact jget_coerceField_other o k' k he

theorem jget_coerceField_keep (o : JObj) (k k' : String)
    (h : isStrB (jget o k) = false) :
    jget (coerceField o k') k = jget o k ∧
      isStrB (jget (coerceField o k') k) = false := by
  have hv := jget_coerceField_preserve o k k' h
  exact ⟨hv, by rw [hv]; exact h⟩

theorem jget_parseNumericFields_preserve (o : JObj) (k : String)
    (h : isStrB (jget o k) = false) :
    jget (parseNumericFields o) k = jget o k := by
  rw [parseNumericFields]
  have h1 := jget_coerceField_keep o k "quantity" h
  have h2 := jget_coerceField_keep _ k "cost_price" h1.2
  have h3 := jget_coerceField_keep _ k "selling_price" h2.2
  have h4 := jget_coerceField_keep _ k "reorder_level" h3.2
  have h5 := jget_coerceField_keep _ k "price_per_night" h4.2
  have h6 := jget_coerceField_keep _ k "total_price" h5.2
  rw [h6.1, h5.1, h4.1, h3.1, h2.1, h1.1]

theorem isStrB_jget_parseNumericFields (o : JObj) (k : String)
    (h : k ∈ numericFieldNames) :
    isStrB (jget (parseNumericFields o) k) = false := by
  rw [numericFieldNames] at h
  simp only [List.mem_cons, List.not_mem_nil, or_false] at h
  rw [parseNumericFields]
  rcases h with rfl | rfl | rfl | rfl | rfl | rfl
  · have h0 := isStrB_jget_coerceField o "quantity"
    have h1 := jget_coerceField_keep _ "quantity" "cost_price" h0
    have h2 := jget_coerceField_keep _ "quantity" "selling_price" h1.2
    have h3 := jget_coerceField_keep _ "quantity" "reorder_level" h2.2
    have h4 := jget_coerceField_keep _ "quantity" "price_per_night" h3.2
    have h5 := jget_coerceField_keep _ "quantity" "total_price" h4.2
    exact h5.2
  · have h0 := isStrB_jget_coerceField (coerceField o "quantity") "cost_price"
    have h1 := jget_coerceField_keep _ "cost_price" "selling_price" h0
    have h2 := jget_coerceField_keep _ "cost_price" "reorder_level" h1.2
    have h3 := jget_coerceField_keep _ "cost_price" "price_per_night" h2.2
    have h4 := jget_coerceField_keep _ "cost_price" "total_price" h3.2
    exact h4.2
  · have h0 := isStrB_jget_coerceField
      (coerceField (coerceField o "quantity") "cost_price") "selling_price"
    have h1 := jget_coerceField_keep _ "selling_price" "reorder_level" h0
    have h2 := jget_coerceField_keep _ "selling_price" "price_per_night" h1.2
    have h3 := jget_coerceField_keep _ "selling_price" "total_price" h2.2
    exact h3.2
  · have h0 := isStrB_jget_coerceField
      (coerceField (coerceField (coerceField o "quantity") "cost_price")
        "selling_price") "reorder_level"
    have h1 := jget_coerceField_keep _ "reorder_level" "price_per_night" h0
    have h2 := jget_coerceField_keep _ "reorder_level" "total_price" h1.2
    exact h2.2
  · have h0 := isStrB_jget_coerceField
      (coerceField (coerceField (coerceField (coerceField o "quantity")
        "cost_price") "selling_price") "reorder_level") "price_per_night"
    have h1 := jget_coerceField_keep _ "price_per_night" "total_price" h0
    exact h1.2
  · exact isStrB_jget_coerceField _ _

/-!
## Lemmas about the in-memory model
-/

theorem qsucc_eq (c : ℚ) : qsucc c = c + 1 := by
  rw [qsucc, Rat.divInt_eq_div]
  push_cast
  rw [add_div, Rat.num_div_den, div_self (by positivity : ((c.den : ℚ)) ≠ 0)]

theorem jsEq_true {a b : JVal} (h : jsEq a b = true) : a = b := by
  cases a <;> cases b <;> simp_all [jsEq]

theorem findIndexJs_some {p : JObj → Bool} {l : List JObj} {i : Nat}
    {x : JObj} (h : findIndexJs p l = some (i, x)) : p x = true := by
  induction l generalizing i with
  | nil => simp [findIndexJs] at h
  | cons y ys ih =>
    rw [findIndexJs] at h
    by_cases hy : p y
    · simp [hy] at h
      rw [← h.2]
      exact hy
    · simp only [hy, if_neg, Bool.false_eq_true, ite_false,
        Option.map_eq_some'] at h
      obtain ⟨r, hr, he⟩ := h
      cases he
      exact ih (by rw [hr])

theorem findIndexJs_set_map {p : JObj → Bool} {l : List JObj} {i : Nat}
    {x : JObj} (f : JObj → JVal) (u : JObj)
    (h : findIndexJs p l = some (i, x)) (hf : f u = f x) :
    (l.set i u).map f = l.map f := by
  induction l generalizing i with
  | nil => simp [findIndexJs] at h
  | cons y ys ih =>
    rw [findIndexJs] at h
    by_cases hy : p y
    · simp only [hy, if_true, Option.some.injEq, Prod.mk.injEq] at h
      obtain ⟨hi, hx⟩ := h
      subst hi
      subst hx
      simp [hf]
    · simp only [hy, if_neg, Bool.false_eq_true, ite_false,
        Option.map_eq_some'] at h
      obtain ⟨r, hr, he⟩ := h
      cases r with
      | mk j z =>
        simp only [Prod.mk.injEq] at he
        obtain ⟨hi, hx⟩ := he
        subst hi
        subst hx
        rw [List.set_cons_succ, List.map_cons, List.map_cons, ih hr]

theorem idv_mkUpdated (old : JObj) (pid : String) (body : JObj) :
    idv (mkUpdated old pid body) = parseIntStr pid := by
  rw [mkUpdated, idv, jget_jset_self]

theorem memPut_eq_some {arr : List JObj} {pid : String} {body : JObj}
    {r : List JObj × JObj} (h : memPut arr pid body = some r) :
    ∃ iu, findIndexJs (matchesId pid) arr = some iu ∧
      r = (arr.set iu.1 (mkUpdated iu.2 pid body), mkUpdated iu.2 pid body) := by
  rw [memPut] at h
  cases hf : findIndexJs (matchesId pid) arr with
  | none => rw [hf] at h; simp at h
  | some iu =>
    rw [hf] at h
    simp only [Option.some.injEq] at h
    exact ⟨iu, rfl, h.symm⟩

theorem memPut_map_idv {arr : List JObj} {pid : String} {body : JObj}
    {r : List JObj × JObj} (h : memPut arr pid body = some r) :
    r.1.map idv = arr.map idv ∧ idv r.2 = parseIntStr pid := by
  obtain ⟨iu, hf, hr⟩ := memPut_eq_some h
  have hm : matchesId pid iu.2 = true := findIndexJs_some hf
  have hid : idv iu.2 = parseIntStr pid := jsEq_true hm
  subst hr
  refine ⟨findIndexJs_set_map idv _ hf ?_, idv_mkUpdated _ _ _⟩
  rw [idv_mkUpdated, hid]

theorem arrOk_congr {arr arr2 : List JObj} {c : ℚ}
    (h : arr2.map idv = arr.map idv) (hok : ArrOk arr c) : ArrOk arr2 c := by
  rw [ArrOk, h]
  exact hok

theorem idv_memPost (arr : List JObj) (c : ℚ) (body : JObj)
    (h : hasKey body "id" = false) :
    idv (memPost arr c body).2.2 = .num c := by
  rw [memPost]
  simp only
  rw [idv, jget_jmerge_notKey _ _ _ h]
  rfl

theorem vBelow_lt {c : ℚ} {v : JVal} (h : vBelow c v = true) :
    vLt v (.num c) = true := by
  cases v <;> simp_all [vBelow, vLt]

theorem vBelow_succ {c : ℚ} {v : JVal} (h : vBelow c v = true) :
    vBelow (qsucc c) v = true := by
  cases v <;> simp_all [vBelow, qsucc_eq]
  linarith

theorem arrOk_memPost {arr : List JObj} {c : ℚ} (body : JObj)
    (hok : ArrOk arr c) (h : hasKey body "id" = false) :
    ArrOk (memPost arr c body).1 (memPost arr c body).2.1 := by
  obtain ⟨hpw, hbd⟩ := hok
  have hnew : idv (jmerge [("id", JVal.num c)] body) = .num c := by
    rw [idv, jget_jmerge_notKey _ _ _ h]
    rfl
  show ArrOk (arr ++ [jmerge [("id", JVal.num c)] body]) (qsucc c)
  constructor
  · simp only [List.map_append, List.map_cons, List.map_nil]
    rw [List.pairwise_append]
    refine ⟨hpw, List.pairwise_singleton _ _, ?_⟩
    intro a ha b hb
    simp only [List.mem_singleton] at hb
    subst hb
    rw [hnew]
    exact vBelow_lt (hbd a ha)
  · intro v hv
    simp only [List.map_append, List.map_cons, List.map_nil,
      List.mem_append, List.mem_singleton] at hv
    rcases hv with hv | hv
    · exact vBelow_succ (hbd v hv)
    · rw [hv, hnew, vBelow, decide_eq_true_eq, qsucc_eq]
      linarith

theorem arrOk_memPut {arr : List JObj} {c : ℚ} {pid : String} {body : JObj}
    {r : List JObj × JObj} (h : memPut arr pid body = some r)
    (hok : ArrOk arr c) : ArrOk r.1 c :=
  arrOk_congr (memPut_map_idv h).1 hok

theorem arrOk_memDelete {arr : List JObj} {c : ℚ} {pid : String}
    {arr2 : List JObj} (h : memDelete arr pid = some arr2)
    (hok : ArrOk arr c) : ArrOk arr2 c := by
  rw [memDelete] at h
  split at h
  · obtain rfl : arr.filter (fun item => !(matchesId pid item)) = arr2 := by
      simpa using h
    obtain ⟨hpw, hbd⟩ := hok
    have hsub : List.Sublist
        ((arr.filter (fun item => !(matchesId pid item))).map idv)
        (arr.map idv) :=
      List.Sublist.map idv (List.filter_sublist arr)
    exact ⟨List.Pairwise.sublist hsub hpw, fun v hv => hbd v (hsub.subset hv)⟩
  · simp at h

theorem step_inv {s s' : MemState} (h : Step s s') (hok : Inv s) : Inv s' := by
  obtain ⟨h1, h2, h3, h4, h5⟩ := hok
  cases h with
  | postInv body hb =>
    exact ⟨arrOk_memPost body h1 hb, h2, h3, h4, h5⟩
  | putInv pid body =>
    cases hp : memPut s.inventoryItems pid body with
    | some r =>
      simp only [putInventoryH, hp]
      exact ⟨arrOk_memPut hp h1, h2, h3, h4, h5⟩
    | none =>
      simp only [putInventoryH, hp]
      exact ⟨h1, h2, h3, h4, h5⟩
  | delInv pid =>
    cases hp : memDelete s.inventoryItems pid with
    | some arr =>
      simp only [deleteInventoryH, hp]
      exact ⟨arrOk_memDelete hp h1, h2, h3, h4, h5⟩
    | none =>
      simp only [deleteInventoryH, hp]
      exact ⟨h1, h2, h3, h4, h5⟩
  | postRoom body hb =>
    exact ⟨h1, arrOk_memPost body h2 hb, h3, h4, h5⟩
  | putRoom pid body =>
    cases hp : memPut s.rooms pid body with
    | some r =>
      simp only [putRoomsH, hp]
      exact ⟨h1, arrOk_memPut hp h2, h3, h4, h5⟩
    | none =>
      simp only [putRoomsH, hp]
      exact ⟨h1, h2, h3, h4, h5⟩
  | delRoom pid =>
    cases hp : memDelete s.rooms pid with
    | some arr =>
      simp only [deleteRoomsH, hp]
      exact ⟨h1, arrOk_memDelete hp h2, h3, h4, h5⟩
    | none =>
      simp only [deleteRoomsH, hp]
      exact ⟨h1, h2, h3, h4, h5⟩
  | postBooking body hb =>
    exact ⟨h1, h2, h3, arrOk_memPost body h4 hb, h5⟩
  | putBooking pid body =>
    cases hp : memPut s.bookings pid body with
    | some r =>
      simp only [putBookingsH, hp]
      exact ⟨h1, h2, h3, arrOk_memPut hp h4, h5⟩
    | none =>
      simp only [putBookingsH, hp]
      exact ⟨h1, h2, h3, h4, h5⟩
  | delBooking pid =>
    cases hp : memDelete s.bookings pid with
    | some arr =>
      simp only [deleteBookingsH, hp]
      exact ⟨h1, h2, h3, arrOk_memDelete hp h4, h5⟩
    | none =>
      simp only [deleteBookingsH, hp]
      exact ⟨h1, h2, h3, h4, h5⟩

theorem inv_memInitial : Inv memInitial := by decide

theorem reachable_inv {s : MemState}
    (h : Relation.ReflTransGen Step memInitial s) : Inv s := by
  induction h with
  | refl => exact inv_memInitial
  | tail _ hstep ih => exact step_inv hstep ih

/-!
## Lemmas about the SQL model
-/

theorem setCols_cons (c : String) (cs : List String) (body r : JObj) :
    setCols (c :: cs) body r = setCols cs body (jset r c (jget body c)) := by
  simp [setCols, List.foldl_cons]

theorem jget_setCols_not_mem (cols : List String) (body r : JObj)
    (k : String) (h : k ∉ cols) :
    jget (setCols cols body r) k = jget r k := by
  induction cols generalizing r with
  | nil => simp [setCols]
  | cons c cs ih =>
    have hkc : k ≠ c := fun hk => h (hk ▸ List.mem_cons_self c cs)
    rw [setCols_cons, ih _ (fun hk => h (List.mem_cons_of_mem c hk)),
        jget_jset_other _ _ _ _ hkc]

theorem jget_setCols_mem (cols : List String) (body r : JObj)
    (k : String) (hnd : cols.Nodup) (h : k ∈ cols) :
    jget (setCols cols body r) k = jget body k := by
  induction cols generalizing r with
  | nil => simp at h
  | cons c cs ih =>
    rw [List.nodup_cons] at hnd
    rw [setCols_cons]
    rcases List.mem_cons.mp h with rfl | hm
    · rw [jget_setCols_not_mem _ _ _ _ hnd.1, jget_jset_self]
    · exact ih _ hnd.2 hm

theorem sqlUpdateWhereId_noMatch (cols : List String) (tbl : List JObj)
    (pid : ℚ) (body : JObj)
    (h : tbl.countP (fun r => sqlEqB (jget r "id") (.num pid)) = 0) :
    (sqlUpdateWhereId cols tbl pid body).1 = tbl := by
  have hall := List.countP_eq_zero.mp h
  rw [sqlUpdateWhereId]
  calc tbl.map (fun r =>
        if sqlEqB (jget r "id") (.num pid) then setCols cols body r else r)
      = tbl.map id := List.map_congr_left (fun a ha => by simp [hall a ha])
    _ = tbl := List.map_id tbl

theorem rowsWithId_noMatch (tbl : List JObj) (pid : ℚ)
    (h : tbl.countP (fun r => sqlEqB (jget r "id") (.num pid)) = 0) :
    rowsWithId tbl pid = [] := by
  rw [rowsWithId, List.filter_eq_nil_iff]
  exact List.countP_eq_zero.mp h

/-!
## Lemmas about the in-memory booking join view
-/

theorem idv_memDetailedRow (rs cs : List JObj) (b : JObj) :
    idv (memDetailedRow rs cs b) = idv b := by
  rw [memDetailedRow, idv, idv,
      jget_jset_other _ _ _ _ (by decide),
      jget_jset_other _ _ _ _ (by decide),
      jget_jset_other _ _ _ _ (by decide),
      jget_jset_other _ _ _ _ (by decide)]

theorem memDetailedRows_map_idv (rs cs bs : List JObj) :
    (memDetailedRows rs cs bs).map idv = bs.map idv := by
  rw [memDetailedRows, List.map_map]
  exact List.map_congr_left (fun b _ => idv_memDetailedRow rs cs b)

theorem parseNumericFields_idem (o : JObj) :
    parseNumericFields (parseNumericFields o) = parseNumericFields o := by
  conv_lhs => rw [parseNumericFields]
  rw [coerceField_eq_self _ "quantity"
        (isStrB_jget_parseNumericFields o _ (by rw [numericFieldNames]; simp)),
      coerceField_eq_self _ "cost_price"
        (isStrB_jget_parseNumericFields o _ (by rw [numericFieldNames]; simp)),
      coerceField_eq_self _ "selling_price"
        (isStrB_jget_parseNumericFields o _ (by rw [numericFieldNames]; simp)),
      coerceField_eq_self _ "reorder_level"
        (isStrB_jget_parseNumericFields o _ (by rw [numericFieldNames]; simp)),
      coerceField_eq_self _ "price_per_night"
        (isStrB_jget_parseNumericFields o _ (by rw [numericFieldNames]; simp)),
      coerceField_eq_self _ "total_price"
        (isStrB_jget_parseNumericFields o _ (by rw [numericFieldNames]; simp))]

/-!
## Claim theorems
-/

/-- Claim C9 (confirmed): the numeric coercion applied at the repository
boundary, `parseNumericFields`, is idempotent — applying it twice equals
applying it once on every record — and it passes `null` and absent
(`undefined`) numeric fields through unchanged rather than fabricating a
zero or any other value. -/
theorem c9_parse_numeric_idempotent (o : JObj) :
    parseNumericFields (parseNumericFields o) = parseNumericFields o ∧
    ∀ k ∈ numericFieldNames,
      (jget o k = .null → jget (parseNumericFields o) k = .null) ∧
      (jget o k = .undef → jget (parseNumericFields o) k = .undef) := by
  refine ⟨parseNumericFields_idem o, fun k hk => ⟨fun hn => ?_, fun hn => ?_⟩⟩
  · rw [jget_parseNumericFields_preserve o k (by rw [hn]; rfl), hn]
  · rw [jget_parseNumericFields_preserve o k (by rw [hn]; rfl), hn]

/-- Witness for C9 at a concrete record whose `quantity` is `null`. -/
theorem c9_parse_numeric_idempotent_wit :
    parseNumericFields (parseNumericFields [("quantity", JVal.null)]) =
      parseNumericFields [("quantity", JVal.null)] ∧
    jget (parseNumericFields [("quantity", JVal.null)]) "quantity" = JVal.null :=
  ⟨(c9_parse_numeric_idempotent [("quantity", JVal.null)]).1,
   ((c9_parse_numeric_idempotent [("quantity", JVal.null)]).2 "quantity"
     (by decide)).1 (by decide)⟩

/-- Claim C2 (confirmed): with the store holding exactly
Room{id 1, room_number "101"}, Client{id 1, name "John Doe"} and
Booking{id 1, room_id 1, client_id 1, total_price 200000}, the
detailed-bookings read of each backend returns exactly one record, and
that record has room_number "101" and client_name "John Doe". -/
theorem c2_join_view_concrete :
    (pgListDetailedBookings
        [[("id", JVal.num 1), ("room_id", JVal.num 1), ("client_id", JVal.num 1),
          ("total_price", JVal.num 200000)]]
        [[("id", JVal.num 1), ("room_number", JVal.str "101")]]
        [[("id", JVal.num 1), ("name", JVal.str "John Doe")]]).map
      (fun o => (jget o "room_number", jget o "client_name")) =
      [(JVal.str "101", JVal.str "John Doe")] ∧
    (mysqlListDetailedBookings
        [[("id", JVal.num 1), ("room_id", JVal.num 1), ("client_id", JVal.num 1),
          ("total_price", JVal.num 200000)]]
        [[("id", JVal.num 1), ("room_number", JVal.str "101")]]
        [[("id", JVal.num 1), ("name", JVal.str "John Doe")]]).map
      (fun o => (jget o "room_number", jget o "client_name")) =
      [(JVal.str "101", JVal.str "John Doe")] ∧
    (memDetailedRows
        [[("id", JVal.num 1), ("room_number", JVal.str "101")]]
        [[("id", JVal.num 1), ("name", JVal.str "John Doe")]]
        [[("id", JVal.num 1), ("room_id", JVal.num 1), ("client_id", JVal.num 1),
          ("total_price", JVal.num 200000)]]).map
      (fun o => (jget o "room_number", jget o "client_name")) =
      [(JVal.str "101", JVal.str "John Doe")] := by
  decide

/-- Claim C10 (confirmed): every in-memory update forces the stored id —
`{ ...old, ...body, id: parseInt(id) }` writes the path id last — so for
every body, even one carrying a different `id` field, the sequence of
stored ids of the collection is unchanged, and a successful update
returns a record whose `id` is the numeric value of the path parameter. -/
theorem c10_update_preserves_id (s : MemState) (pid : String) (body : JObj) :
    (putInventoryH s pid body).1.inventoryItems.map idv =
      s.inventoryItems.map idv ∧
    (putRoomsH s pid body).1.rooms.map idv = s.rooms.map idv ∧
    (putBookingsH s pid body).1.bookings.map idv = s.bookings.map idv ∧
    ∀ arr r, memPut arr pid body = some r →
      idv r.2 = parseIntStr pid ∧ r.1.map idv = arr.map idv := by
  refine ⟨?_, ?_, ?_,
    fun arr r h => ⟨(memPut_map_idv h).2, (memPut_map_idv h).1⟩⟩
  · cases hp : memPut s.inventoryItems pid body with
    | some r =>
      simp only [putInventoryH, hp]
      exact (memPut_map_idv hp).1
    | none => simp [putInventoryH, hp]
  · cases hp : memPut s.rooms pid body with
    | some r =>
      simp only [putRoomsH, hp]
      exact (memPut_map_idv hp).1
    | none => simp [putRoomsH, hp]
  · cases hp : memPut s.bookings pid body with
    | some r =>
      simp only [putBookingsH, hp]
      exact (memPut_map_idv hp).1
    | none => simp [putBookingsH, hp]

/-- Witness for C10: updating room 2 with a body that carries `id: 99`
still stores and returns id 2. -/
theorem c10_update_preserves_id_wit :
    idv c10witNew = parseIntStr "2" ∧
    c10witArr.map idv = memInitial.rooms.map idv :=
  (c10_update_preserves_id memInitial "2" c10witBody).2.2.2 memInitial.rooms
    (c10witArr, c10witNew) (by decide)

/-- Counterexample to claim C4 as stated: in the in-memory backend,
updating inventory item 1 with the field set `{name: "X"}` (which does
not supply `quantity`) yields a record whose `quantity` is still 100 —
the pre-update value survives, so `update` does not replace all mutable
fields with exactly the supplied fields. -/
theorem c4_counterexample :
    hasKey [("name", JVal.str "X")] "quantity" = false ∧
    (memPut initInventoryItems "1" [("name", JVal.str "X")]).map
      (fun p => jget p.2 "quantity") = some (JVal.num 100) ∧
    jget initInventoryItems.headI "quantity" = JVal.num 100 := by
  decide

/-- Claim C4 (corrected): the relational backends do replace every
mutable column with the supplied value (and leave `id` untouched), but
the in-memory backend merges the body over the stored record: a supplied
field takes the supplied value, while a field absent from the body keeps
its pre-update value — partial updates are supported there, and
pre-update values survive for unsupplied fields. -/
theorem c4_update_replace_amended :
    (∀ (old : JObj) (pid : String) (body : JObj) (k : String),
      (body.map Prod.fst).Nodup → k ≠ "id" →
      jget (mkUpdated old pid body) k =
        (if hasKey body k then jget body k else jget old k)) ∧
    (∀ (body r : JObj) (k : String), k ∈ invColNames →
      jget (setCols invColNames body r) k = jget body k) ∧
    (∀ body r : JObj, jget (setCols invColNames body r) "id" = jget r "id") := by
  refine ⟨fun old pid body k hnd hk => ?_,
    fun body r k hm => jget_setCols_mem _ _ _ _ (by decide) hm,
    fun body r => jget_setCols_not_mem _ _ _ _ (by decide)⟩
  rw [mkUpdated, jget_jset_other _ _ _ _ hk]
  cases hb : hasKey body k with
  | true => simpa using jget_jmerge_key _ _ _ hnd hb
  | false => simpa using jget_jmerge_notKey _ _ _ hb

/-- Witness for C4 (amended): a supplied field takes the supplied value,
an unsupplied one keeps the old value, and the SQL column overwrite
returns the supplied column value. -/
theorem c4_update_replace_amended_wit :
    jget (mkUpdated [("id", JVal.num 1), ("quantity", JVal.num 100)] "1"
      [("name", JVal.str "X")]) "quantity" = JVal.num 100 ∧
    jget (setCols invColNames [("name", JVal.str "X")] []) "name" =
      JVal.str "X" := by
  constructor
  · have h := c4_update_replace_amended.1
      [("id", JVal.num 1), ("quantity", JVal.num 100)] "1"
      [("name", JVal.str "X")] "quantity" (by decide) (by decide)
    rw [h]
    decide
  · have h := c4_update_replace_amended.2.1 [("name", JVal.str "X")] [] "name"
      (by decide)
    rw [h]
    decide

/-- Claim C1 (confirmed): a booking whose referenced room or client is
missing contributes no row to the relational inner joins — prepending it
to the bookings table leaves the detailed-bookings result of both
relational variants unchanged — while the in-memory read produces
exactly one row per stored booking (same length, id preserved) and
substitutes the string "N/A" for room_number and room_type when the room
is missing, and for client_name and client_contact_info when the client
is missing. -/
theorem c1_dangling_reference_policy (rs cs : List JObj) (b : JObj) :
    ((rs.filter (fun r => sqlEqB (jget b "room_id") (jget r "id")) = [] ∨
      cs.filter (fun c => sqlEqB (jget b "client_id") (jget c "id")) = []) →
        sqlJoinOne rs cs b = [] ∧ mysqlJoinOne rs cs b = [] ∧
        (∀ bs : List JObj,
          pgListDetailedBookings (b :: bs) rs cs =
            pgListDetailedBookings bs rs cs) ∧
        (∀ bs : List JObj,
          mysqlListDetailedBookings (b :: bs) rs cs =
            mysqlListDetailedBookings bs rs cs)) ∧
    (getById rs (jget b "room_id") = none →
      jget (memDetailedRow rs cs b) "room_number" = JVal.str "N/A" ∧
      jget (memDetailedRow rs cs b) "room_type" = JVal.str "N/A") ∧
    (getById cs (jget b "client_id") = none →
      jget (memDetailedRow rs cs b) "client_name" = JVal.str "N/A" ∧
      jget (memDetailedRow rs cs b) "client_contact_info" = JVal.str "N/A") ∧
    idv (memDetailedRow rs cs b) = idv b ∧
    ∀ bs : List JObj, (memDetailedRows rs cs bs).length = bs.length := by
  have hjoin : (rs.filter (fun r => sqlEqB (jget b "room_id") (jget r "id")) = [] ∨
      cs.filter (fun c => sqlEqB (jget b "client_id") (jget c "id")) = []) →
      sqlJoinOne rs cs b = [] ∧ mysqlJoinOne rs cs b = [] := by
    rintro (h | h)
    · constructor
      · rw [sqlJoinOne, h]
        rfl
      · rw [mysqlJoinOne, h]
        rfl
    · constructor
      · rw [sqlJoinOne, h]
        simp
      · rw [mysqlJoinOne, h]
        simp
  refine ⟨fun h => ⟨(hjoin h).1, (hjoin h).2, fun bs => ?_, fun bs => ?_⟩,
    fun h => ?_, fun h => ?_, idv_memDetailedRow rs cs b,
    fun bs => by simp [memDetailedRows]⟩
  · rw [pgListDetailedBookings, pgListDetailedBookings, List.flatMap_cons,
        (hjoin h).1, List.nil_append]
  · rw [mysqlListDetailedBookings, mysqlListDetailedBookings,
        List.flatMap_cons, (hjoin h).2, List.nil_append]
  · constructor
    · rw [memDetailedRow]
      simp only [h]
      rw [jget_jset_other _ _ _ _ (by decide),
          jget_jset_other _ _ _ _ (by decide),
          jget_jset_other _ _ _ _ (by decide), jget_jset_self]
    · rw [memDetailedRow]
      simp only [h]
      rw [jget_jset_other _ _ _ _ (by decide),
          jget_jset_other _ _ _ _ (by decide), jget_jset_self]
  · constructor
    · rw [memDetailedRow]
      simp only [h]
      rw [jget_jset_other _ _ _ _ (by decide), jget_jset_self]
    · rw [memDetailedRow]
      simp only [h]
      rw [jget_jset_self]

/-- Witness for C1: a booking referencing room 9 and client 9 against
empty room and client collections is dropped by the joins and rendered
with "N/A" placeholders by the in-memory read. -/
theorem c1_dangling_reference_policy_wit :
    sqlJoinOne [] []
      [("id", JVal.num 7), ("room_id", JVal.num 9), ("client_id", JVal.num 9)] = [] ∧
    mysqlJoinOne [] []
      [("id", JVal.num 7), ("room_id", JVal.num 9), ("client_id", JVal.num 9)] = [] ∧
    jget (memDetailedRow [] []
      [("id", JVal.num 7), ("room_id", JVal.num 9), ("client_id", JVal.num 9)])
      "room_number" = JVal.str "N/A" ∧
    jget (memDetailedRow [] []
      [("id", JVal.num 7), ("room_id", JVal.num 9), ("client_id", JVal.num 9)])
      "client_name" = JVal.str "N/A" := by
  refine ⟨((c1_dangling_reference_policy [] [] _).1 (Or.inl rfl)).1,
    ((c1_dangling_reference_policy [] [] _).1 (Or.inl rfl)).2.1,
    (((c1_dangling_reference_policy [] [] _).2.1) (by decide)).1,
    (((c1_dangling_reference_policy [] [] _).2.2.1) (by decide)).1⟩

/-- Counterexample to claim C3 as stated: the MariaDB variant issues
`SELECT * FROM inventory` with no ORDER BY; with the store's rows in
internal order [id 2, id 1] the read returns them in that order, not
ascending by id. -/
theorem c3_counterexample :
    ¬ SortedIds (mysqlListInventory
      [[("id", JVal.num 2)], [("id", JVal.num 1)]]) := by
  decide

/-- Claim C3 (amended): the PostgreSQL variant's list reads sort by id
ascending (ORDER BY id ASC) for every table state; the in-memory
variant's collections — and with them its list reads and the
detailed-bookings read — have strictly ascending ids in every state
reachable from startup by requests whose create bodies carry no `id`
property; the MariaDB variant issues no ORDER BY, so no order is
guaranteed there. -/
theorem c3_list_order_amended :
    (∀ tbl : List JObj, List.Sorted rowLe (orderByIdAsc tbl)) ∧
    (∀ s : MemState, Relation.ReflTransGen Step memInitial s →
      SortedIds s.inventoryItems ∧ SortedIds s.rooms ∧ SortedIds s.clients ∧
      SortedIds s.bookings ∧ SortedIds s.categories ∧
      SortedIds (memDetailedRows s.rooms s.clients s.bookings)) := by
  constructor
  · intro tbl
    exact List.sorted_insertionSort rowLe tbl
  · intro s hs
    obtain ⟨h1, h2, h3, h4, h5⟩ := reachable_inv hs
    refine ⟨h1.1, h2.1, h3.1, h4.1, h5.1, ?_⟩
    rw [SortedIds, memDetailedRows_map_idv]
    exact h4.1

/-- Witness for C3 (amended) at a concrete unsorted table and at the
initial in-memory state. -/
theorem c3_list_order_amended_wit :
    List.Sorted rowLe (orderByIdAsc
      [[("id", JVal.num 2)], [("id", JVal.num 1)]]) ∧
    SortedIds memInitial.bookings ∧
    SortedIds (memDetailedRows memInitial.rooms memInitial.clients
      memInitial.bookings) :=
  ⟨c3_list_order_amended.1 _,
   (c3_list_order_amended.2 memInitial Relation.ReflTransGen.refl).2.2.2.1,
   (c3_list_order_amended.2 memInitial Relation.ReflTransGen.refl).2.2.2.2.2⟩

/-- Counterexample to claim C5 as stated: the PostgreSQL variant returns
driver rows unmodified, so a `cost_price` the driver represents as the
string "1500.00" is returned string-typed by the inventory read. -/
theorem c5_counterexample :
    (pgListInventory [[("id", JVal.num 1),
        ("cost_price", JVal.str "1500.00")]]).map
      (fun o => isStrB (jget o "cost_price")) = [true] := by
  decide

/-- Claim C5 (amended): in the MariaDB variant every row of the
inventory, rooms and detailed-bookings reads passes through
`parseNumericFields`, so the numeric fields (quantity, cost_price,
selling_price, reorder_level, price_per_night, total_price) are never
string-typed, whatever the driver representation; the PostgreSQL variant
returns driver rows unchanged, so a string-typed driver representation
stays a string there. -/
theorem c5_numeric_coercion_amended :
    (∀ (tbl : List JObj) (o : JObj), o ∈ mysqlListInventory tbl →
      ∀ k ∈ numericFieldNames, isStrB (jget o k) = false) ∧
    (∀ (tbl : List JObj) (o : JObj), o ∈ mysqlListRooms tbl →
      ∀ k ∈ numericFieldNames, isStrB (jget o k) = false) ∧
    (∀ (bs rs cs : List JObj) (o : JObj),
      o ∈ mysqlListDetailedBookings bs rs cs →
      ∀ k ∈ numericFieldNames, isStrB (jget o k) = false) := by
  refine ⟨fun tbl o ho k hk => ?_, fun tbl o ho k hk => ?_,
    fun bs rs cs o ho k hk => ?_⟩
  · rw [mysqlListInventory] at ho
    obtain ⟨r, _, rfl⟩ := List.mem_map.mp ho
    exact isStrB_jget_parseNumericFields r k hk
  · rw [mysqlListRooms] at ho
    obtain ⟨r, _, rfl⟩ := List.mem_map.mp ho
    exact isStrB_jget_parseNumericFields r k hk
  · rw [mysqlListDetailedBookings] at ho
    obtain ⟨r, _, rfl⟩ := List.mem_map.mp ho
    exact isStrB_jget_parseNumericFields r k hk

/-- Witness for C5 (amended): a string-typed `cost_price` coming out of
the driver leaves the MariaDB inventory read as a number. -/
theorem c5_numeric_coercion_amended_wit :
    isStrB (jget (parseNumericFields
      [("cost_price", JVal.str "1500.00")]) "cost_price") = false :=
  c5_numeric_coercion_amended.1 [[("cost_price", JVal.str "1500.00")]]
    (parseNumericFields [("cost_price", JVal.str "1500.00")])
    (by decide) "cost_price" (by decide)

/-- Counterexample to claim C6 as stated: in the MariaDB variant a
successful delete of an existing inventory item answers status 200 with
a `{message}` body, not 204 with an empty body. -/
theorem c6_counterexample :
    (mysqlDeleteInventoryH [[("id", JVal.num 1), ("name", JVal.str "x")]] 1).2 =
      ⟨200, .obj (msgObj "Inventory item deleted successfully!")⟩ ∧
    (mysqlDeleteInventoryH [[("id", JVal.num 1), ("name", JVal.str "x")]]
      1).2.status ≠ 204 := by
  decide

/-- Claim C6 (amended): the PostgreSQL and in-memory variants answer a
successful delete with 204 and an empty body, a successful update with
200 and the updated entity, and a create with 201 and the created
entity; the MariaDB variant answers a successful delete with 200 and a
message body, a successful update with 200 and a message body (no
entity), and a create with 201 and a message object carrying the
assigned identifier. -/
theorem c6_status_mapping_amended :
    (∀ (tbl : List JObj) (pid : ℚ), (sqlDeleteWhereId tbl pid).2 ≠ 0 →
      (pgDeleteInventoryH tbl pid).2 = ⟨204, .empty⟩) ∧
    (∀ (s : MemState) (pid : String) (arr : List JObj),
      memDelete s.inventoryItems pid = some arr →
      (deleteInventoryH s pid).2 = ⟨204, .empty⟩) ∧
    (∀ (tbl : List JObj) (pid : ℚ), (sqlDeleteWhereId tbl pid).2 ≠ 0 →
      (mysqlDeleteInventoryH tbl pid).2 =
        ⟨200, .obj (msgObj "Inventory item deleted successfully!")⟩) ∧
    (∀ (tbl : List JObj) (pid : ℚ) (body : JObj) (u : JObj) (rest : List JObj),
      rowsWithId (sqlUpdateWhereId invColNames tbl pid body).1 pid = u :: rest →
      (pgUpdateInventoryH tbl pid body).2 = ⟨200, .obj u⟩) ∧
    (∀ (s : MemState) (pid : String) (body : JObj) (r : List JObj × JObj),
      memPut s.inventoryItems pid body = some r →
      (putInventoryH s pid body).2 = ⟨200, .obj r.2⟩) ∧
    (∀ (tbl : List JObj) (pid : ℚ) (body : JObj),
      invFieldsValid body = true →
      (sqlUpdateWhereId invColNames tbl pid body).2 ≠ 0 →
      (mysqlUpdateInventoryH tbl pid body).2 =
        ⟨200, .obj (msgObj "Inventory item updated successfully!")⟩) ∧
    (∀ (tbl : List JObj) (newId : ℚ) (body : JObj),
      (pgCreateInventoryH tbl newId body).2 =
        ⟨201, .obj (insertedRow invColNames newId body)⟩) ∧
    (∀ (s : MemState) (body : JObj), (postInventoryH s body).2 =
      ⟨201, .obj (memPost s.inventoryItems s.nextInventoryId body).2.2⟩) ∧
    (∀ (tbl : List JObj) (newId : ℚ) (body : JObj),
      invFieldsValid body = true →
      (mysqlCreateInventoryH tbl newId body).2 =
        ⟨201, .obj (("message", JVal.str "Inventory item added successfully!") ::
          [("id", JVal.num newId)])⟩) := by
  refine ⟨fun tbl pid h => ?_, fun s pid arr h => ?_, fun tbl pid h => ?_,
    fun tbl pid body u rest h => ?_, fun s pid body r h => ?_,
    fun tbl pid body hv h => ?_, fun tbl newId body => rfl,
    fun s body => rfl, fun tbl newId body hv => ?_⟩
  · simp [pgDeleteInventoryH, h]
  · simp [deleteInventoryH, h]
  · simp [mysqlDeleteInventoryH, h]
  · simp [pgUpdateInventoryH, h]
  · simp [putInventoryH, h]
  · simp [mysqlUpdateInventoryH, hv, h]
  · simp [mysqlCreateInventoryH, hv]

/-- Witness for C6 (amended) at the initial data: deleting inventory
item 1 answers 204/empty in the PostgreSQL and in-memory variants and
200/message in the MariaDB variant. -/
theorem c6_status_mapping_amended_wit :
    (pgDeleteInventoryH initInventoryItems 1).2 = ⟨204, .empty⟩ ∧
    (deleteInventoryH memInitial "1").2 = ⟨204, .empty⟩ ∧
    (mysqlDeleteInventoryH initInventoryItems 1).2 =
      ⟨200, .obj (msgObj "Inventory item deleted successfully!")⟩ :=
  ⟨c6_status_mapping_amended.1 initInventoryItems 1 (by decide),
   c6_status_mapping_amended.2.1 memInitial "1" initInventoryItems.tail
     (by decide),
   c6_status_mapping_amended.2.2.1 initInventoryItems 1 (by decide)⟩

/-- Counterexample to claim C7 as stated: with an empty store (so id 999
does not exist) and an empty field set, the MariaDB update handler
answers 400, not 404. -/
theorem c7_counterexample :
    (mysqlUpdateInventoryH [] 999 []).2.status = 400 ∧
    (mysqlUpdateInventoryH [] 999 []).2.status ≠ 404 ∧
    rowsWithId [] 999 = [] := by
  decide

/-- Claim C7 (amended): update on a non-existent id answers 404 whenever
the body passes the backend's presence check (the PostgreSQL and
in-memory backends check nothing, so always); when the check fails the
MariaDB backend answers 400 instead; in every case the store is left
unchanged. -/
theorem c7_update_notfound_amended :
    (∀ (tbl : List JObj) (pid : ℚ) (body : JObj),
      invFieldsValid body = true →
      tbl.countP (fun r => sqlEqB (jget r "id") (.num pid)) = 0 →
      mysqlUpdateInventoryH tbl pid body =
        (tbl, ⟨404, .obj (msgObj "Inventory item not found.")⟩)) ∧
    (∀ (tbl : List JObj) (pid : ℚ) (body : JObj),
      invFieldsValid body = false →
      mysqlUpdateInventoryH tbl pid body =
        (tbl, ⟨400, .obj (msgObj "All fields are required for update.")⟩)) ∧
    (∀ (tbl : List JObj) (pid : ℚ) (body : JObj),
      tbl.countP (fun r => sqlEqB (jget r "id") (.num pid)) = 0 →
      pgUpdateInventoryH tbl pid body =
        (tbl, ⟨404, .obj (msgObj "Item not found")⟩)) ∧
    (∀ (s : MemState) (pid : String) (body : JObj),
      findIndexJs (matchesId pid) s.bookings = none →
      putBookingsH s pid body = (s, ⟨404, .obj (msgObj "Booking not found")⟩)) := by
  refine ⟨fun tbl pid body hv h0 => ?_, fun tbl pid body hv => ?_,
    fun tbl pid body h0 => ?_, fun s pid body h => ?_⟩
  · have h1 := sqlUpdateWhereId_noMatch invColNames tbl pid body h0
    have h2 : (sqlUpdateWhereId invColNames tbl pid body).2 = 0 := h0
    simp only [mysqlUpdateInventoryH, hv, if_true, h2, if_pos]
    rw [h1]
  · simp [mysqlUpdateInventoryH, hv]
  · have h1 := sqlUpdateWhereId_noMatch invColNames tbl pid body h0
    have h2 : rowsWithId (sqlUpdateWhereId invColNames tbl pid body).1 pid = [] := by
      rw [h1]
      exact rowsWithId_noMatch tbl pid h0
    simp only [pgUpdateInventoryH, h2]
    rw [h1]
  · have hput : memPut s.bookings pid body = none := by
      rw [memPut, h]
    simp [putBookingsH, hput]

/-- Witness for C7 (amended) at concrete inputs: a valid body against a
store without the id answers 404 and leaves the table unchanged; an
invalid body answers 400; the in-memory booking update on a missing id
answers 404 and leaves the state unchanged. -/
theorem c7_update_notfound_amended_wit :
    mysqlUpdateInventoryH [] 999
      [("name", JVal.str "n"), ("category_id", JVal.num 1),
       ("quantity", JVal.num 1), ("unit", JVal.str "u"),
       ("cost_price", JVal.num 1), ("selling_price", JVal.num 1),
       ("reorder_level", JVal.num 1)] =
      ([], ⟨404, .obj (msgObj "Inventory item not found.")⟩) ∧
    mysqlUpdateInventoryH [] 999 [] =
      ([], ⟨400, .obj (msgObj "All fields are required for update.")⟩) ∧
    pgUpdateInventoryH [] 999 [] = ([], ⟨404, .obj (msgObj "Item not found")⟩) ∧
    putBookingsH memInitial "999" [] =
      (memInitial, ⟨404, .obj (msgObj "Booking not found")⟩) :=
  ⟨c7_update_notfound_amended.1 [] 999 _ (by decide) (by decide),
   c7_update_notfound_amended.2.1 [] 999 [] (by decide),
   c7_update_notfound_amended.2.2.1 [] 999 [] (by decide),
   c7_update_notfound_amended.2.2.2 memInitial "999" [] (by decide)⟩

/-- Counterexample to claim C8 as stated: the in-memory create builds
`{ id: nextId++, ...req.body }`, so a request body carrying `id: 1`
overrides the assigned identifier — against the initial store the
created record receives id 1, which collides with an existing id and is
not greater than the previously assigned identifiers. -/
theorem c8_counterexample :
    idv (memPost memInitial.inventoryItems memInitial.nextInventoryId
      [("id", JVal.num 1), ("name", JVal.str "Dup")]).2.2 = JVal.num 1 ∧
    JVal.num 1 ∈ memInitial.inventoryItems.map idv := by
  decide

/-- Claim C8 (amended): for every sequence of in-memory create requests
whose bodies do not carry an `id` property, against a well-formed
collection the created records receive strictly increasing identifiers
(hence pairwise distinct), each strictly greater than every previously
stored identifier, and the collection stays well formed; a body with an
`id` property overrides the assigned identifier instead. -/
theorem c8_create_ids_amended :
    ∀ (bodies arr : List JObj) (c : ℚ), ArrOk arr c →
      (∀ b ∈ bodies, hasKey b "id" = false) →
      SortedIds (postMany arr c bodies).2.2 ∧
      (∀ x ∈ arr.map idv, ∀ y ∈ (postMany arr c bodies).2.2.map idv,
        vLt x y = true) ∧
      ArrOk (postMany arr c bodies).1 (postMany arr c bodies).2.1 := by
  intro bodies
  induction bodies with
  | nil =>
    intro arr c hok hb
    exact ⟨by simp [postMany, SortedIds], by simp [postMany], hok⟩
  | cons b rest ih =>
    intro arr c hok hb
    have hb0 : hasKey b "id" = false := hb b (List.mem_cons_self b rest)
    have hbr : ∀ x ∈ rest, hasKey x "id" = false :=
      fun x hx => hb x (List.mem_cons_of_mem b hx)
    have hnext : ArrOk (arr ++ [jmerge [("id", JVal.num c)] b]) (qsucc c) :=
      arrOk_memPost b hok hb0
    have ihr := ih (arr ++ [jmerge [("id", JVal.num c)] b]) (qsucc c) hnext hbr
    have hnew : idv (jmerge [("id", JVal.num c)] b) = JVal.num c := by
      rw [idv, jget_jmerge_notKey _ _ _ hb0]
      rfl
    have hmemc : JVal.num c ∈
        (arr ++ [jmerge [("id", JVal.num c)] b]).map idv := by
      rw [List.map_append]
      exact List.mem_append_right _ (by simp [hnew])
    have hshape : postMany arr c (b :: rest) =
        ((postMany (arr ++ [jmerge [("id", JVal.num c)] b]) (qsucc c) rest).1,
         ((postMany (arr ++ [jmerge [("id", JVal.num c)] b]) (qsucc c) rest).2.1,
          jmerge [("id", JVal.num c)] b ::
            (postMany (arr ++ [jmerge [("id", JVal.num c)] b])
              (qsucc c) rest).2.2)) := rfl
    rw [hshape]
    refine ⟨?_, ?_, ihr.2.2⟩
    · rw [SortedIds, List.map_cons, List.pairwise_cons]
      refine ⟨fun y hy => ?_, ihr.1⟩
      rw [hnew]
      exact ihr.2.1 (JVal.num c) hmemc y hy
    · intro x hx y hy
      simp only [List.map_cons, List.mem_cons] at hy
      rcases hy with rfl | hy
      · rw [hnew]
        exact vBelow_lt (hok.2 x hx)
      · exact ihr.2.1 x
          (by rw [List.map_append]; exact List.mem_append_left _ hx) y hy

/-- Witness for C8 (amended): three id-free creates against the initial
inventory collection yield strictly increasing fresh identifiers and a
well-formed collection. -/
theorem c8_create_ids_amended_wit :
    SortedIds (postMany memInitial.inventoryItems memInitial.nextInventoryId
      [[("name", JVal.str "A")], [("name", JVal.str "B")],
       [("name", JVal.str "C")]]).2.2 ∧
    ArrOk (postMany memInitial.inventoryItems memInitial.nextInventoryId
      [[("name", JVal.str "A")], [("name", JVal.str "B")],
       [("name", JVal.str "C")]]).1
      (postMany memInitial.inventoryItems memInitial.nextInventoryId
      [[("name", JVal.str "A")], [("name", JVal.str "B")],
       [("name", JVal.str "C")]]).2.1 :=
  ⟨(c8_create_ids_amended
      [[("name", JVal.str "A")], [("name", JVal.str "B")],
       [("name", JVal.str "C")]]
      memInitial.inventoryItems memInitial.nextInventoryId
      (by decide) (by decide)).1,
   (c8_create_ids_amended
      [[("name", JVal.str "A")], [("name", JVal.str "B")],
       [("name", JVal.str "C")]]
      memInitial.inventoryItems memInitial.nextInventoryId
      (by decide) (by decide)).2.2⟩

end DreamsBar
